import Mathlib

/-!
Verification of the line-oriented Markdown-to-HTML converter
(`markdown2html.py`).

Shallow embedding conventions:
* a Python string is a `List Char`;
* `html.write(s)` appends to an output accumulator, so `process_line`
  takes the stream written so far and returns the extended stream
  together with the three updated state booleans (the Python function
  mutates the file handle and returns the boolean triple);
* `exit`/`stderr` in `process_markdown` become an explicit `RunOutcome`
  record; the existence check `os.path.isfile` becomes a boolean input.
-/

/-- Convert a string literal to the character-list representation. -/
def strL (s : String) : List Char := s.toList

/-- Python `line.lstrip(c)` for a single strip character: drop every
leading occurrence of `c`. -/
def lstrip (c : Char) : List Char → List Char
  | [] => []
  | x :: xs => if x = c then lstrip c xs else x :: xs

/-- The count of leading copies of `c`, computed exactly as the source
does: `len(line) - len(line.lstrip(c))`. -/
def leadingCount (c : Char) (l : List Char) : Nat :=
  l.length - (lstrip c l).length

/-- ASCII whitespace recognised by Python `str.strip()`. -/
def isPySpace (c : Char) : Bool :=
  c = ' ' || c = '\t' || c = '\n' || c = '\r' || c = '\x0b' || c = '\x0c'

/-- Python `s.strip()`: remove whitespace from both ends. -/
def strip (l : List Char) : List Char :=
  ((l.dropWhile isPySpace).reverse.dropWhile isPySpace).reverse

/-- Decimal rendering of a natural number, as used by `'<h{}>'.format(n)`. -/
def natChars (n : Nat) : List Char := (toString n).toList

/--
`process_line(line, html, unordered_start, ordered_start, paragraph)`
(source lines 114-197).  The returned quadruple is the written stream
followed by the updated `unordered_start, ordered_start, paragraph`.
-/
def process_line (line html : List Char)
    (unordered_start ordered_start paragraph : Bool) :
    List Char × Bool × Bool × Bool :=
  -- length = len(line)
  let length := line.length
  -- headings = line.lstrip('#'); heading_num = length - len(headings)
  let headings := lstrip '#' line
  let heading_num := leadingCount '#' line
  -- unordered = line.lstrip('-'); unordered_num = length - len(unordered)
  let unordered := lstrip '-' line
  let unordered_num := leadingCount '-' line
  -- ordered = line.lstrip('*'); ordered_num = length - len(ordered)
  let ordered := lstrip '*' line
  let ordered_num := leadingCount '*' line
  -- if 1 <= heading_num <= 6: line = '<h{}>' + headings.strip() + '</h{}>\n'
  let line :=
    if 1 ≤ heading_num ∧ heading_num ≤ 6 then
      strL "<h" ++ natChars heading_num ++ strL ">" ++ strip headings ++
        strL "</h" ++ natChars heading_num ++ strL ">" ++ strL "\n"
    else line
  -- if unordered_num: (open <ul> when needed, rewrite line as <li>)
  let out :=
    if unordered_num ≠ 0 ∧ unordered_start = false then strL "<ul>\n" else []
  let unordered_start := if unordered_num ≠ 0 then true else unordered_start
  let line :=
    if unordered_num ≠ 0 then strL "<li>" ++ strip unordered ++ strL "</li>\n"
    else line
  -- if unordered_start and not unordered_num: close </ul>
  let out :=
    if unordered_start = true ∧ unordered_num = 0 then out ++ strL "</ul>\n"
    else out
  let unordered_start :=
    if unordered_start = true ∧ unordered_num = 0 then false
    else unordered_start
  -- if ordered_num: (open <ol> when needed, rewrite line as <li>)
  let out :=
    if ordered_num ≠ 0 ∧ ordered_start = false then out ++ strL "<ol>\n"
    else out
  let ordered_start := if ordered_num ≠ 0 then true else ordered_start
  let line :=
    if ordered_num ≠ 0 then strL "<li>" ++ strip ordered ++ strL "</li>\n"
    else line
  -- if ordered_start and not ordered_num: close </ol>
  let out :=
    if ordered_start = true ∧ ordered_num = 0 then out ++ strL "</ol>\n"
    else out
  let ordered_start :=
    if ordered_start = true ∧ ordered_num = 0 then false else ordered_start
  -- if not (heading_num or unordered_start or ordered_start): paragraphs
  let pcond :=
    heading_num = 0 ∧ unordered_start = false ∧ ordered_start = false
  let out :=
    if pcond then
      if paragraph = false ∧ length > 1 then out ++ strL "<p>\n"
      else if length > 1 then out ++ strL "<br/>\n"
      else if paragraph = true then out ++ strL "</p>\n"
      else out
    else out
  let paragraph :=
    if pcond then
      if paragraph = false ∧ length > 1 then true
      else if length > 1 then paragraph
      else if paragraph = true then false
      else paragraph
    else paragraph
  -- if length > 1: html.write(line)
  let out := if length > 1 then out ++ line else out
  (html ++ out, unordered_start, ordered_start, paragraph)

/-- `close_open_tags(html, unordered_start, ordered_start, paragraph)`
(source lines 200-221). -/
def close_open_tags (html : List Char)
    (unordered_start ordered_start paragraph : Bool) : List Char :=
  let html := if unordered_start = true then html ++ strL "</ul>\n" else html
  let html := if ordered_start = true then html ++ strL "</ol>\n" else html
  if paragraph = true then html ++ strL "</p>\n" else html

/-- Python `line.replace(old, new, 1)`: replace the first (leftmost)
occurrence of `pat`, scanning left to right.  (All call sites use a
nonempty `pat`.) -/
def replaceFirst (pat rep : List Char) : List Char → List Char
  | [] => []
  | x :: xs =>
    if pat.isPrefixOf (x :: xs) then rep ++ (x :: xs).drop pat.length
    else x :: replaceFirst pat rep xs

/-- Python `line.replace(old, new)` (no count): replace every
non-overlapping occurrence of `pat`, scanning left to right; the
replacement text is not rescanned.  Fuel-driven so that it is a
structural recursion; `replaceAll` supplies enough fuel.  (All call
sites use a nonempty `pat`.) -/
def replaceAllAux (pat rep : List Char) : Nat → List Char → List Char
  | 0, l => l
  | _ + 1, [] => []
  | fuel + 1, x :: xs =>
    if pat.isPrefixOf (x :: xs) ∧ pat ≠ [] then
      rep ++ replaceAllAux pat rep fuel ((x :: xs).drop pat.length)
    else x :: replaceAllAux pat rep fuel xs

/-- Python `line.replace(old, new)` for a nonempty `old`. -/
def replaceAll (pat rep l : List Char) : List Char :=
  replaceAllAux pat rep l.length l

/-- `convert_bold(line)` (source lines 23-42): replace the first two
occurrences of `**` with `<b>`/`</b>` and the first two occurrences of
`__` with `<em>`/`</em>`. -/
def convert_bold (line : List Char) : List Char :=
  let line := replaceFirst (strL "**") (strL "<b>") line
  let line := replaceFirst (strL "**") (strL "</b>") line
  let line := replaceFirst (strL "__") (strL "<em>") line
  let line := replaceFirst (strL "__") (strL "</em>") line
  line

/-!
The regex `\[\[(.+?)\]\]` (and its `((`/`))` analogue): scan start
positions left to right; at a start position matching the doubled open
delimiter, take the shortest nonempty newline-free content followed by
the doubled close delimiter; on failure advance the start by one
character.
-/

/-- After the doubled open delimiter and a first content character
(held reversed in `acc`), extend the content minimally until the next
two characters are both `c2`; `.` in the pattern cannot match a
newline. -/
def matchClose (c2 : Char) : List Char → List Char → Option (List Char)
  | acc, a :: b :: rest =>
    if a = c2 ∧ b = c2 then some acc.reverse
    else if a = '\n' then none
    else matchClose c2 (a :: acc) (b :: rest)
  | _, _ => none

/-- Match `(.+?)` followed by the doubled `c2` delimiter at the head of
the input: the content needs at least one character, none of them a
newline. -/
def matchContent (c2 : Char) : List Char → Option (List Char)
  | [] => none
  | x :: xs => if x = '\n' then none else matchClose c2 [x] xs

/-- First match of the doubled-delimiter span pattern in the line,
returning the content between the delimiters. -/
def findSpanContent (c1 c2 : Char) : List Char → Option (List Char)
  | [] => none
  | x :: xs =>
    if x = c1 ∧ xs.head? = some c1 then
      match matchContent c2 xs.tail with
      | some t => some t
      | none => findSpanContent c1 c2 xs
    else findSpanContent c1 c2 xs

/-! MD5 (RFC 1321), on lists of byte values, with 32-bit words as
naturals reduced modulo `2 ^ 32`. -/

/-- Truncate to a 32-bit word. -/
def w32 (n : Nat) : Nat := n % 4294967296

/-- Rotate a 32-bit word left by `s` (`0 < s < 32` at every use). -/
def rotl32 (x s : Nat) : Nat :=
  w32 (x * 2 ^ s) + (w32 x) / 2 ^ (32 - s)

/-- The 64 MD5 sine-derived constants `T[i+1]`. -/
def md5K : List Nat := [
  0xd76aa478, 0xe8c7b756, 0x242070db, 0xc1bdceee, 0xf57c0faf, 0x4787c62a, 0xa8304613, 0xfd469501,
  0x698098d8, 0x8b44f7af, 0xffff5bb1, 0x895cd7be, 0x6b901122, 0xfd987193, 0xa679438e, 0x49b40821,
  0xf61e2562, 0xc040b340, 0x265e5a51, 0xe9b6c7aa, 0xd62f105d, 0x02441453, 0xd8a1e681, 0xe7d3fbc8,
  0x21e1cde6, 0xc33707d6, 0xf4d50d87, 0x455a14ed, 0xa9e3e905, 0xfcefa3f8, 0x676f02d9, 0x8d2a4c8a,
  0xfffa3942, 0x8771f681, 0x6d9d6122, 0xfde5380c, 0xa4beea44, 0x4bdecfa9, 0xf6bb4b60, 0xbebfbc70,
  0x289b7ec6, 0xeaa127fa, 0xd4ef3085, 0x04881d05, 0xd9d4d039, 0xe6db99e5, 0x1fa27cf8, 0xc4ac5665,
  0xf4292244, 0x432aff97, 0xab9423a7, 0xfc93a039, 0x655b59c3, 0x8f0ccc92, 0xffeff47d, 0x85845dd1,
  0x6fa87e4f, 0xfe2ce6e0, 0xa3014314, 0x4e0811a1, 0xf7537e82, 0xbd3af235, 0x2ad7d2bb, 0xeb86d391]

/-- The 64 MD5 per-round left-rotation amounts. -/
def md5S : List Nat := [
  7, 12, 17, 22, 7, 12, 17, 22, 7, 12, 17, 22, 7, 12, 17, 22,
  5, 9, 14, 20, 5, 9, 14, 20, 5, 9, 14, 20, 5, 9, 14, 20,
  4, 11, 16, 23, 4, 11, 16, 23, 4, 11, 16, 23, 4, 11, 16, 23,
  6, 10, 15, 21, 6, 10, 15, 21, 6, 10, 15, 21, 6, 10, 15, 21]

/-- One MD5 round on the state `(a, b, c, d)` with message words `M`. -/
def md5Round (M : List Nat) (st : Nat × Nat × Nat × Nat) (i : Nat) :
    Nat × Nat × Nat × Nat :=
  let (a, b, c, d) := st
  let nb := 4294967295
  let f :=
    if i < 16 then (b &&& c) ||| ((nb ^^^ b) &&& d)
    else if i < 32 then (d &&& b) ||| ((nb ^^^ d) &&& c)
    else if i < 48 then b ^^^ c ^^^ d
    else c ^^^ (b ||| (nb ^^^ d))
  let g :=
    if i < 16 then i
    else if i < 32 then (5 * i + 1) % 16
    else if i < 48 then (3 * i + 5) % 16
    else (7 * i) % 16
  let tmp := w32 (a + f + md5K.getD i 0 + M.getD g 0)
  (d, w32 (b + rotl32 tmp (md5S.getD i 0)), b, c)

/-- Little-endian 32-bit words from a list of bytes (4 bytes per word). -/
def toWords : List Nat → List Nat
  | b0 :: b1 :: b2 :: b3 :: rest =>
    (b0 + 256 * b1 + 65536 * b2 + 16777216 * b3) :: toWords rest
  | _ => []

/-- Process one 64-byte block. -/
def md5ProcessBlock (st : Nat × Nat × Nat × Nat) (block : List Nat) :
    Nat × Nat × Nat × Nat :=
  let M := toWords block
  let r := (List.range 64).foldl (md5Round M) st
  (w32 (st.1 + r.1), w32 (st.2.1 + r.2.1), w32 (st.2.2.1 + r.2.2.1),
    w32 (st.2.2.2 + r.2.2.2))

/-- Process the padded message 64 bytes at a time (fuel-driven
structural recursion; one unit of fuel per byte is more than enough). -/
def md5Blocks : Nat → (Nat × Nat × Nat × Nat) → List Nat →
    Nat × Nat × Nat × Nat
  | 0, st, _ => st
  | _ + 1, st, [] => st
  | fuel + 1, st, b :: bs =>
    md5Blocks fuel (md5ProcessBlock st ((b :: bs).take 64)) ((b :: bs).drop 64)

/-- MD5 padding: a `0x80` byte, zeros to 56 mod 64, then the bit length
as a little-endian 64-bit value. -/
def md5Pad (m : List Nat) : List Nat :=
  let lenBits := (8 * m.length) % 18446744073709551616
  let k := (120 - ((m.length + 1) % 64)) % 64
  m ++ [128] ++ List.replicate k 0 ++
    [lenBits % 256, lenBits / 256 % 256, lenBits / 65536 % 256,
     lenBits / 16777216 % 256, lenBits / 4294967296 % 256,
     lenBits / 1099511627776 % 256, lenBits / 281474976710656 % 256,
     lenBits / 72057594037927936 % 256]

/-- The four bytes of a 32-bit word, little-endian. -/
def le4 (n : Nat) : List Nat :=
  [n % 256, n / 256 % 256, n / 65536 % 256, n / 16777216 % 256]

/-- The 16 digest bytes of a byte message. -/
def md5Bytes (m : List Nat) : List Nat :=
  let padded := md5Pad m
  let r := md5Blocks padded.length
    (0x67452301, 0xefcdab89, 0x98badcfe, 0x10325476) padded
  le4 r.1 ++ le4 r.2.1 ++ le4 r.2.2.1 ++ le4 r.2.2.2

/-- UTF-8 encoding of one character (Python `str.encode()`). -/
def utf8Char (c : Char) : List Nat :=
  let n := c.toNat
  if n < 128 then [n]
  else if n < 2048 then [192 + n / 64, 128 + n % 64]
  else if n < 65536 then [224 + n / 4096, 128 + n / 64 % 64, 128 + n % 64]
  else [240 + n / 262144, 128 + n / 4096 % 64, 128 + n / 64 % 64,
    128 + n % 64]

/-- UTF-8 encoding of a character list. -/
def utf8Bytes (l : List Char) : List Nat := (l.map utf8Char).flatten

/-- The hexadecimal digit characters. -/
def hexDigit (n : Nat) : Char := (strL "0123456789abcdef").getD n '0'

/-- Lowercase hexadecimal rendering of one byte. -/
def hexByte (b : Nat) : List Char := [hexDigit (b / 16 % 16), hexDigit (b % 16)]

/-- `hashlib.md5(text.encode()).hexdigest()`: the 32-character lowercase
hexadecimal MD5 digest of the UTF-8 encoding of `text`. -/
def md5hex (text : List Char) : List Char :=
  ((md5Bytes (utf8Bytes text)).map hexByte).flatten

/-- `convert_md5(line)` (source lines 45-68): if the regex
`\[\[(.+?)\]\]` matches, replace every occurrence of the full first
match `md5[0]` with the digest of its content `md5_text[0]`
(`str.replace` without a count replaces all occurrences). -/
def convert_md5 (line : List Char) : List Char :=
  match findSpanContent '[' ']' line with
  | none => line
  | some t => replaceAll (strL "[[" ++ t ++ strL "]]") (md5hex t) line

/-- `remove_letter_c(line)` (source lines 71-91): if the regex
`\(\((.+?)\)\)` matches, replace every occurrence of the full first
match with its content minus all characters in `'Cc'`. -/
def remove_letter_c (line : List Char) : List Char :=
  match findSpanContent '(' ')' line with
  | none => line
  | some t =>
    replaceAll (strL "((" ++ t ++ strL "))")
      (t.filter (fun ch => !(ch = 'C' || ch = 'c'))) line

/-- `convert_line(line)` (source lines 94-111): bold, then md5, then
letter-c removal. -/
def convert_line (line : List Char) : List Char :=
  remove_letter_c (convert_md5 (convert_bold line))

/-- The per-line loop of `convert_and_write_html` (source lines
241-247), from a given stream and state. -/
def processLinesFrom (html : List Char)
    (unordered_start ordered_start paragraph : Bool) :
    List (List Char) → List Char × Bool × Bool × Bool
  | [] => (html, unordered_start, ordered_start, paragraph)
  | l :: ls =>
    let r := process_line (convert_line l) html
      unordered_start ordered_start paragraph
    processLinesFrom r.1 r.2.1 r.2.2.1 r.2.2.2 ls

/-- `convert_and_write_html(lines, output_file)` (source lines 224-250):
the full content written to the output file. -/
def convert_and_write_html (lines : List (List Char)) : List Char :=
  let r := processLinesFrom [] false false false lines
  close_open_tags r.1 r.2.1 r.2.2.1 r.2.2.2

/-- Observable outcome of one `process_markdown` run: the exit status,
what was printed to stderr, and the output-file content (`none` when no
output file was created). -/
structure RunOutcome where
  exitCode : Nat
  errMsg : List Char
  outputFile : Option (List Char)
  deriving DecidableEq, Repr

/-- `process_markdown(input_file, output_file)` (source lines 253-273)
together with the `exit(0)` of the main block: `os.path.isfile` is the
boolean input, `print(..., file=sys.stderr)` appends a newline. -/
def process_markdown (input_exists : Bool) (input_path : List Char)
    (input_lines : List (List Char)) : RunOutcome :=
  if input_exists = false then
    { exitCode := 1
      errMsg := strL "Missing " ++ input_path ++ strL "\n"
      outputFile := none }
  else
    { exitCode := 0
      errMsg := []
      outputFile := some (convert_and_write_html input_lines) }

/-- Whether `pat` occurs as a contiguous substring of `l`. -/
def containsSub (pat : List Char) : List Char → Bool
  | [] => pat.isEmpty
  | x :: xs => pat.isPrefixOf (x :: xs) || containsSub pat xs

/-- Whether `pat` matches at some position strictly inside the first
component of `pre ++ rest` (i.e. at one of the first `pre.length`
positions of the concatenation). -/
def hasMatchSkipping (pat : List Char) : List Char → List Char → Bool
  | [], _ => false
  | x :: xs, rest => pat.isPrefixOf (x :: (xs ++ rest)) || hasMatchSkipping pat xs rest

/-- Number of (possibly overlapping) occurrences of `pat` in `l`. -/
def countSub (pat : List Char) : List Char → Nat
  | [] => 0
  | x :: xs => (if pat.isPrefixOf (x :: xs) then 1 else 0) + countSub pat xs

/-- The block-state transition of one `process_line` call (the boolean
triple it returns), with the stream projected away. -/
def stepState (st : Bool × Bool × Bool) (line : List Char) :
    Bool × Bool × Bool :=
  (process_line line [] st.1 st.2.1 st.2.2).2

/-- The block state after feeding a sequence of lines to
`process_line`, starting from `st`. -/
def runState (st : Bool × Bool × Bool) (lines : List (List Char)) :
    Bool × Bool × Bool :=
  lines.foldl stepState st

/-- At most one of the three block-state booleans is set. -/
def atMostOne (st : Bool × Bool × Bool) : Bool :=
  !(st.1 && st.2.1) && !(st.1 && st.2.2) && !(st.2.1 && st.2.2)

/-- A line that the state machine treats as a list item (leading `-`
or leading `*`). -/
def isListLine (l : List Char) : Bool :=
  decide (leadingCount '-' l ≠ 0) || decide (leadingCount '*' l ≠ 0)

/-- Well-formed alternation of an input sequence from a given state: a
list-item line never arrives while a paragraph is open.  (This is the
discipline the spec assumes between paragraphs and lists: a paragraph
is closed — by a blank line — before a list starts.) -/
def wellAlternating : (Bool × Bool × Bool) → List (List Char) → Bool
  | _, [] => true
  | st, l :: ls =>
    !(st.2.2 && isListLine l) && wellAlternating (stepState st l) ls

theorem lstrip_length_le (c : Char) (l : List Char) :
    (lstrip c l).length ≤ l.length := by
  induction l with
  | nil => simp [lstrip]
  | cons x xs ih =>
    by_cases h : x = c
    · simp only [lstrip, if_pos h]
      exact Nat.le_trans ih (Nat.le_succ _)
    · simp [lstrip, h]

theorem lstrip_of_head_ne (c : Char) (l : List Char)
    (h : l.head? ≠ some c) : lstrip c l = l := by
  cases l with
  | nil => rfl
  | cons x xs =>
    have hx : x ≠ c := by
      intro he
      exact h (by simp [he])
    simp [lstrip, hx]

theorem leadingCount_eq_zero_of_head_ne (c : Char) (l : List Char)
    (h : l.head? ≠ some c) : leadingCount c l = 0 := by
  simp [leadingCount, lstrip_of_head_ne c l h]

theorem head_of_leadingCount_ne_zero (c : Char) (l : List Char)
    (h : leadingCount c l ≠ 0) : l.head? = some c := by
  by_contra hne
  exact h (leadingCount_eq_zero_of_head_ne c l hne)
theorem process_line_heading_spec (line html : List Char) (u o p : Bool)
    (h1 : 1 ≤ leadingCount '#' line) (h2 : leadingCount '#' line ≤ 6)
    (hl : line.length > 1) :
    process_line line html u o p =
      (html ++ (if u = true then strL "</ul>\n" else []) ++
        (if o = true then strL "</ol>\n" else []) ++
        (strL "<h" ++ natChars (leadingCount '#' line) ++ strL ">" ++
          strip (lstrip '#' line) ++
          strL "</h" ++ natChars (leadingCount '#' line) ++ strL ">" ++
          strL "\n"),
       false, false, p) := by
  have hh : line.head? = some '#' :=
    head_of_leadingCount_ne_zero '#' line (by omega)
  have hun : leadingCount '-' line = 0 := by
    apply leadingCount_eq_zero_of_head_ne
    rw [hh]; intro hc; simp at hc
  have hord : leadingCount '*' line = 0 := by
    apply leadingCount_eq_zero_of_head_ne
    rw [hh]; intro hc; simp at hc
  have hne : leadingCount '#' line ≠ 0 := by omega
  by_cases hu : u <;> by_cases ho : o <;>
    simp [process_line, hun, hord, h1, h2, hl, hne, hu, ho,
      List.append_assoc]
theorem process_line_plain_spec (line html : List Char) (u o p : Bool)
    (hh : leadingCount '#' line = 0) (hun : leadingCount '-' line = 0)
    (hord : leadingCount '*' line = 0) :
    process_line line html u o p =
      (html ++ (if u = true then strL "</ul>\n" else []) ++
        (if o = true then strL "</ol>\n" else []) ++
        (if p = false ∧ line.length > 1 then strL "<p>\n"
         else if line.length > 1 then strL "<br/>\n"
         else if p = true then strL "</p>\n" else []) ++
        (if line.length > 1 then line else []),
       false, false, decide (line.length > 1)) := by
  by_cases hu : u <;> by_cases ho : o <;> by_cases hp : p <;>
    by_cases hl : line.length > 1 <;>
    simp [process_line, hh, hun, hord, hu, ho, hp, hl, List.append_assoc]

theorem process_line_bighash_spec (line html : List Char) (u o p : Bool)
    (h7 : leadingCount '#' line > 6) :
    process_line line html u o p =
      (html ++ (if u = true then strL "</ul>\n" else []) ++
        (if o = true then strL "</ol>\n" else []) ++
        (if line.length > 1 then line else []),
       false, false, p) := by
  have hh : line.head? = some '#' :=
    head_of_leadingCount_ne_zero '#' line (by omega)
  have hun : leadingCount '-' line = 0 := by
    apply leadingCount_eq_zero_of_head_ne
    rw [hh]; intro hc; simp at hc
  have hord : leadingCount '*' line = 0 := by
    apply leadingCount_eq_zero_of_head_ne
    rw [hh]; intro hc; simp at hc
  have hne : leadingCount '#' line ≠ 0 := by omega
  have hr : ¬(1 ≤ leadingCount '#' line ∧ leadingCount '#' line ≤ 6) := by
    omega
  by_cases hu : u <;> by_cases ho : o <;> by_cases hl : line.length > 1 <;>
    simp [process_line, hun, hord, hne, hr, hu, ho, hl, List.append_assoc]
theorem process_line_closes_ul (nxt html : List Char)
    (hun : leadingCount '-' nxt = 0) (hord : leadingCount '*' nxt = 0) :
    process_line nxt html true false false =
      (html ++ strL "</ul>\n" ++ (process_line nxt [] false false false).1,
       (process_line nxt [] false false false).2) := by
  by_cases hh : leadingCount '#' nxt = 0 <;>
    by_cases hr : 1 ≤ leadingCount '#' nxt ∧ leadingCount '#' nxt ≤ 6 <;>
    by_cases hl : nxt.length > 1 <;>
    simp [process_line, hun, hord, hh, hr, hl, List.append_assoc]

theorem stepState_spec (u o p : Bool) (line : List Char) :
    stepState (u, o, p) line =
      (decide (leadingCount '-' line ≠ 0),
       decide (leadingCount '*' line ≠ 0),
       if leadingCount '#' line = 0 ∧ leadingCount '-' line = 0 ∧
           leadingCount '*' line = 0 then
         decide (line.length > 1)
       else p) := by
  by_cases hh : leadingCount '#' line = 0 <;>
    by_cases hun : leadingCount '-' line = 0 <;>
    by_cases hord : leadingCount '*' line = 0 <;>
    by_cases hu : u <;> by_cases ho : o <;> by_cases hp : p <;>
    by_cases hl : line.length > 1 <;>
    simp [stepState, process_line, hh, hun, hord, hu, ho, hp, hl]
theorem atMostOne_step (u o p : Bool) (line : List Char)
    (hok : (p && isListLine line) = false) :
    atMostOne (stepState (u, o, p) line) = true := by
  rw [stepState_spec]
  by_cases hun : leadingCount '-' line = 0 <;>
    by_cases hord : leadingCount '*' line = 0
  · simp [atMostOne, hun, hord]
  · have hp : p = false := by
      have : isListLine line = true := by simp [isListLine, hord]
      simpa [this] using hok
    simp [atMostOne, hun, hord, hp]
  · have hp : p = false := by
      have : isListLine line = true := by simp [isListLine, hun]
      simpa [this] using hok
    simp [atMostOne, hun, hord, hp]
  · exfalso
    have h1 := head_of_leadingCount_ne_zero '-' line hun
    have h2 := head_of_leadingCount_ne_zero '*' line hord
    rw [h1] at h2
    simp at h2

theorem runState_take_atMostOne (lines : List (List Char)) :
    ∀ (st : Bool × Bool × Bool) (i : Nat), atMostOne st = true →
      wellAlternating st lines = true →
      atMostOne (runState st (lines.take i)) = true := by
  induction lines with
  | nil =>
    intro st i hst _
    simpa [runState] using hst
  | cons l ls ih =>
    intro st i hst hwa
    obtain ⟨u, o, p⟩ := st
    rw [wellAlternating] at hwa
    rw [Bool.and_eq_true] at hwa
    cases i with
    | zero => simpa [runState] using hst
    | succ i =>
      have hok : (p && isListLine l) = false := by
        have := hwa.1
        simp only [Bool.not_eq_true'] at this
        exact this
      have hstep := atMostOne_step u o p l hok
      simp only [List.take_succ_cons, runState, List.foldl_cons]
      exact ih (stepState (u, o, p) l) i hstep hwa.2
theorem leadingCount_zero_of_other (line : List Char) (c d : Char)
    (hne : c ≠ d) (hc : leadingCount c line ≠ 0) :
    leadingCount d line = 0 := by
  by_contra hd
  have h1 := head_of_leadingCount_ne_zero c line hc
  have h2 := head_of_leadingCount_ne_zero d line hd
  rw [h1] at h2
  exact hne (Option.some.inj h2)

/-- Claim C1: starting from the all-false block state, under well-formed
alternation of the input (no list-item line arrives while a paragraph is
open), after `process_line` handles any line — i.e. after any prefix of
the input — at most one of the three block-state booleans is true. -/
theorem claim_C1_at_most_one_state (lines : List (List Char))
    (h : wellAlternating (false, false, false) lines = true) (i : Nat) :
    atMostOne (runState (false, false, false) (lines.take i)) = true :=
  runState_take_atMostOne lines (false, false, false) i (by decide) h

/-- Witness for claim C1 at a concrete three-line input. -/
theorem claim_C1_at_most_one_state_witness :
    wellAlternating (false, false, false)
      [strL "Hello\n", strL "\n", strL "- x\n"] = true ∧
    atMostOne (runState (false, false, false)
      ([strL "Hello\n", strL "\n", strL "- x\n"].take 3)) = true :=
  ⟨by decide,
    claim_C1_at_most_one_state [strL "Hello\n", strL "\n", strL "- x\n"]
      (by decide) 3⟩

/-- Claim C2 counterexample: the line `#######ab\n` has leading-`#`
count 7 (so it is not a heading), is longer than one character, is not
a list item, and is processed from the all-false state — yet
`process_line` emits no `<p>` and leaves the paragraph state false: the
step-4 paragraph handling does not apply because the code tests
`heading_num == 0`, not `heading not detected`. -/
theorem claim_C2_counterexample :
    leadingCount '#' (strL "#######ab\n") = 7 ∧
    (strL "#######ab\n").length > 1 ∧
    leadingCount '-' (strL "#######ab\n") = 0 ∧
    leadingCount '*' (strL "#######ab\n") = 0 ∧
    process_line (strL "#######ab\n") [] false false false =
      (strL "#######ab\n", false, false, false) := by
  decide

/-- Claim C2 (amended): a line is not a heading when its leading-`#`
count is 0 or more than 6; paragraph/line-break handling applies
exactly when the leading-`#` count is 0 (and the line is not a list
item, closing any open list first).  When the count exceeds 6 the line
is written unchanged and the paragraph logic is skipped entirely. -/
theorem claim_C2_paragraph_handling :
    (∀ (line html : List Char) (u o p : Bool),
      leadingCount '#' line = 0 → leadingCount '-' line = 0 →
      leadingCount '*' line = 0 →
      process_line line html u o p =
        (html ++ (if u = true then strL "</ul>\n" else []) ++
          (if o = true then strL "</ol>\n" else []) ++
          (if p = false ∧ line.length > 1 then strL "<p>\n"
           else if line.length > 1 then strL "<br/>\n"
           else if p = true then strL "</p>\n" else []) ++
          (if line.length > 1 then line else []),
         false, false, decide (line.length > 1))) ∧
    (∀ (line html : List Char) (u o p : Bool),
      leadingCount '#' line > 6 →
      process_line line html u o p =
        (html ++ (if u = true then strL "</ul>\n" else []) ++
          (if o = true then strL "</ol>\n" else []) ++
          (if line.length > 1 then line else []),
         false, false, p)) :=
  ⟨fun line html u o p hh hun hord =>
    process_line_plain_spec line html u o p hh hun hord,
   fun line html u o p h7 =>
    process_line_bighash_spec line html u o p h7⟩

/-- Witness for claim C2 (amended): a plain text line opens a
paragraph; a seven-`#` line is written unchanged with no `<p>`. -/
theorem claim_C2_paragraph_handling_witness :
    (leadingCount '#' (strL "hi\n") = 0 ∧
      leadingCount '-' (strL "hi\n") = 0 ∧
      leadingCount '*' (strL "hi\n") = 0 ∧
      process_line (strL "hi\n") [] false false false =
        (strL "<p>\nhi\n", false, false, true)) ∧
    (leadingCount '#' (strL "#######ab\n") > 6 ∧
      process_line (strL "#######ab\n") [] true false false =
        (strL "</ul>\n#######ab\n", false, false, false)) := by
  constructor
  · refine ⟨by decide, by decide, by decide, ?_⟩
    exact (claim_C2_paragraph_handling.1 (strL "hi\n") [] false false false
      (by decide) (by decide) (by decide)).trans (by decide)
  · refine ⟨by decide, ?_⟩
    exact (claim_C2_paragraph_handling.2 (strL "#######ab\n") [] true false
      false (by decide)).trans (by decide)

/-- Claim C3: finalization appends `</ul>` when the unordered list is
open, then `</ol>` when the ordered list is open, then `</p>` when a
paragraph is open — in exactly that order — and each closing tag is
emitted exactly once (count 1 when the state is open, 0 otherwise). -/
theorem claim_C3_finalization (u o p : Bool) :
    (∀ html, close_open_tags html u o p =
      html ++ (if u = true then strL "</ul>\n" else []) ++
        (if o = true then strL "</ol>\n" else []) ++
        (if p = true then strL "</p>\n" else [])) ∧
    countSub (strL "</ul>") (close_open_tags [] u o p) =
      (if u = true then 1 else 0) ∧
    countSub (strL "</ol>") (close_open_tags [] u o p) =
      (if o = true then 1 else 0) ∧
    countSub (strL "</p>") (close_open_tags [] u o p) =
      (if p = true then 1 else 0) := by
  refine ⟨?_, ?_, ?_, ?_⟩ <;> cases u <;> cases o <;> cases p <;>
    first
      | (intro html; simp [close_open_tags, List.append_assoc])
      | decide

/-- Claim C4 counterexample: the line consisting of the single
character `#` has leading-`#` count 1, yet `process_line` emits nothing
at all (the write is guarded by `length > 1`), so no
`<h1>...</h1>` line is produced. -/
theorem claim_C4_counterexample :
    leadingCount '#' (strL "#") = 1 ∧
    process_line (strL "#") [] false false false =
      ([], false, false, false) := by
  decide

/-- Claim C4 (amended): for a line of length greater than 1 with
leading-`#` count N, 1 ≤ N ≤ 6, the emitted line is `<hN>` ++ trimmed
remainder ++ `</hN>` (after any pending list close); for N > 6, and for
N = 0 on a non-list line, the written line is the line itself,
unconverted.  (A bare `#` of length 1 emits nothing.) -/
theorem claim_C4_heading_conversion :
    (∀ (line html : List Char) (u o p : Bool),
      1 ≤ leadingCount '#' line → leadingCount '#' line ≤ 6 →
      line.length > 1 →
      process_line line html u o p =
        (html ++ (if u = true then strL "</ul>\n" else []) ++
          (if o = true then strL "</ol>\n" else []) ++
          (strL "<h" ++ natChars (leadingCount '#' line) ++ strL ">" ++
            strip (lstrip '#' line) ++
            strL "</h" ++ natChars (leadingCount '#' line) ++ strL ">" ++
            strL "\n"),
         false, false, p)) ∧
    (∀ (line html : List Char) (u o p : Bool),
      leadingCount '#' line > 6 →
      process_line line html u o p =
        (html ++ (if u = true then strL "</ul>\n" else []) ++
          (if o = true then strL "</ol>\n" else []) ++
          (if line.length > 1 then line else []),
         false, false, p)) ∧
    (∀ (line html : List Char) (u o p : Bool),
      leadingCount '#' line = 0 → leadingCount '-' line = 0 →
      leadingCount '*' line = 0 → line.length > 1 →
      (process_line line html u o p).1 =
        html ++ (if u = true then strL "</ul>\n" else []) ++
          (if o = true then strL "</ol>\n" else []) ++
          (if p = false then strL "<p>\n" else strL "<br/>\n") ++ line) := by
  refine ⟨?_, ?_, ?_⟩
  · intro line html u o p h1 h2 hl
    exact process_line_heading_spec line html u o p h1 h2 hl
  · intro line html u o p h7
    exact process_line_bighash_spec line html u o p h7
  · intro line html u o p hh hun hord hl
    rw [process_line_plain_spec line html u o p hh hun hord]
    cases p <;> simp [hl]

/-- Witness for claim C4 (amended), at a level-2 heading, a
seven-`#` line and a plain line. -/
theorem claim_C4_heading_conversion_witness :
    (1 ≤ leadingCount '#' (strL "## T\n") ∧
      leadingCount '#' (strL "## T\n") ≤ 6 ∧
      (strL "## T\n").length > 1 ∧
      process_line (strL "## T\n") [] false false false =
        (strL "<h2>T</h2>\n", false, false, false)) ∧
    (leadingCount '#' (strL "#######x\n") > 6 ∧
      process_line (strL "#######x\n") [] false false false =
        (strL "#######x\n", false, false, false)) ∧
    (leadingCount '#' (strL "plain\n") = 0 ∧
      (process_line (strL "plain\n") [] false false false).1 =
        strL "<p>\nplain\n") := by
  refine ⟨⟨by decide, by decide, by decide, ?_⟩, ⟨by decide, ?_⟩,
    ⟨by decide, ?_⟩⟩
  · exact (claim_C4_heading_conversion.1 (strL "## T\n") [] false false false
      (by decide) (by decide) (by decide)).trans (by decide)
  · exact (claim_C4_heading_conversion.2.1 (strL "#######x\n") [] false false
      false (by decide)).trans (by decide)
  · exact (claim_C4_heading_conversion.2.2 (strL "plain\n") [] false false
      false (by decide) (by decide) (by decide) (by decide)).trans (by decide)

/-- Claim C10: for every line, at most one of the three classification
counts (leading `#`, leading `-`, leading `*`) is nonzero, since each
is a run of a distinct character at the start of the line; hence a
heading rewrite and a list rewrite never both apply, and the two list
branches never fire on the same line. -/
theorem claim_C10_counts_exclusive (line : List Char) :
    (if leadingCount '#' line = 0 then 0 else 1) +
    (if leadingCount '-' line = 0 then 0 else 1) +
    (if leadingCount '*' line = 0 then 0 else 1) ≤ 1 := by
  by_cases h1 : leadingCount '#' line = 0
  · by_cases h2 : leadingCount '-' line = 0
    · by_cases h3 : leadingCount '*' line = 0 <;> simp [h1, h2, h3]
    · have h3 := leadingCount_zero_of_other line '-' '*' (by decide) h2
      simp [h1, h2, h3]
  · have h2 := leadingCount_zero_of_other line '#' '-' (by decide) h1
    have h3 := leadingCount_zero_of_other line '#' '*' (by decide) h1
    simp [h1, h2, h3]
/-- Claim C5: processing `- a`, `- b` and then any non-list line (one
unchanged by the inline transforms) from the all-false state writes
`<ul>`, the two `<li>` items, then `</ul>` when the non-list line
arrives, followed by whatever that line itself produces from the
all-false state. -/
theorem claim_C5_unordered_list (nxt : List Char)
    (hcv : convert_line nxt = nxt)
    (hun : leadingCount '-' nxt = 0) (hord : leadingCount '*' nxt = 0) :
    (processLinesFrom [] false false false
      [strL "- a\n", strL "- b\n", nxt]).1 =
      strL "<ul>\n<li>a</li>\n<li>b</li>\n</ul>\n" ++
        (process_line nxt [] false false false).1 := by
  have s1 : process_line (convert_line (strL "- a\n")) [] false false false =
      (strL "<ul>\n<li>a</li>\n", true, false, false) := by decide
  have s2 : process_line (convert_line (strL "- b\n"))
      (strL "<ul>\n<li>a</li>\n") true false false =
      (strL "<ul>\n<li>a</li>\n<li>b</li>\n", true, false, false) := by
    decide
  have key : strL "<ul>\n<li>a</li>\n<li>b</li>\n" ++ strL "</ul>\n" =
      strL "<ul>\n<li>a</li>\n<li>b</li>\n</ul>\n" := by decide
  simp only [processLinesFrom, s1, s2, hcv,
    process_line_closes_ul nxt _ hun hord]
  rw [← key, List.append_assoc]

/-- Witness for claim C5 with the plain next line `c`. -/
theorem claim_C5_unordered_list_witness :
    (convert_line (strL "c\n") = strL "c\n" ∧
      leadingCount '-' (strL "c\n") = 0 ∧
      leadingCount '*' (strL "c\n") = 0) ∧
    (processLinesFrom [] false false false
      [strL "- a\n", strL "- b\n", strL "c\n"]).1 =
      strL "<ul>\n<li>a</li>\n<li>b</li>\n</ul>\n<p>\nc\n" :=
  ⟨⟨by decide, by decide, by decide⟩,
    (claim_C5_unordered_list (strL "c\n") (by decide) (by decide)
      (by decide)).trans (by decide)⟩

/-- Claim C6: two consecutive non-blank, non-list, non-heading lines
(each unchanged by the inline transforms), converted from the all-false
state and finalized, produce `<p>`, the first line, `<br/>`, the second
line, and `</p>`. -/
theorem claim_C6_paragraph_break (l1 l2 : List Char)
    (hc1 : convert_line l1 = l1) (hc2 : convert_line l2 = l2)
    (hh1 : leadingCount '#' l1 = 0) (hu1 : leadingCount '-' l1 = 0)
    (ho1 : leadingCount '*' l1 = 0) (hl1 : l1.length > 1)
    (hh2 : leadingCount '#' l2 = 0) (hu2 : leadingCount '-' l2 = 0)
    (ho2 : leadingCount '*' l2 = 0) (hl2 : l2.length > 1) :
    convert_and_write_html [l1, l2] =
      strL "<p>\n" ++ l1 ++ strL "<br/>\n" ++ l2 ++ strL "</p>\n" := by
  unfold convert_and_write_html
  simp only [processLinesFrom, hc1, hc2,
    process_line_plain_spec l1 [] false false false hh1 hu1 ho1]
  simp only [decide_eq_true hl1]
  simp only [process_line_plain_spec l2 _ false false true hh2 hu2 ho2]
  simp [close_open_tags, hl1, hl2, List.append_assoc]

/-- Witness for claim C6 at the spec's example input. -/
theorem claim_C6_paragraph_break_witness :
    (convert_line (strL "Line one\n") = strL "Line one\n" ∧
      leadingCount '#' (strL "Line one\n") = 0 ∧
      leadingCount '-' (strL "Line one\n") = 0 ∧
      leadingCount '*' (strL "Line one\n") = 0 ∧
      (strL "Line one\n").length > 1 ∧
      convert_line (strL "Line two\n") = strL "Line two\n") ∧
    convert_and_write_html [strL "Line one\n", strL "Line two\n"] =
      strL "<p>\nLine one\n<br/>\nLine two\n</p>\n" :=
  ⟨⟨by decide, by decide, by decide, by decide, by decide, by decide⟩,
    (claim_C6_paragraph_break (strL "Line one\n") (strL "Line two\n")
      (by decide) (by decide) (by decide) (by decide) (by decide)
      (by decide) (by decide) (by decide) (by decide)
      (by decide)).trans (by decide)⟩
theorem replaceFirst_cons (pat rep : List Char) (x : Char) (xs : List Char) :
    replaceFirst pat rep (x :: xs) =
      if pat.isPrefixOf (x :: xs) then rep ++ (x :: xs).drop pat.length
      else x :: replaceFirst pat rep xs := by
  simp [replaceFirst]

theorem containsSub_append_self (pat pre post : List Char) :
    containsSub pat (pre ++ pat ++ post) = true := by
  induction pre with
  | nil =>
    simp only [List.nil_append]
    cases pat with
    | nil =>
      cases post with
      | nil => rfl
      | cons y ys => simp [containsSub, List.isPrefixOf]
    | cons q qs =>
      have hpre : (q :: qs).isPrefixOf (q :: (qs ++ post)) = true := by
        rw [← List.cons_append]
        exact List.isPrefixOf_iff_prefix.mpr ⟨post, rfl⟩
      simp only [List.cons_append, containsSub, List.append_eq, hpre, Bool.true_or]
  | cons x pre' ih =>
    simp only [List.cons_append, containsSub, List.append_eq, ih, Bool.or_true]

/-- Claim C9: when the input path does not refer to an existing file,
the run exits with status 1, writes `Missing <input_path>` (containing
the path) to the error stream, and creates no output file. -/
theorem claim_C9_missing_input (path : List Char)
    (lines : List (List Char)) :
    (process_markdown false path lines).exitCode = 1 ∧
    (process_markdown false path lines).outputFile = none ∧
    (process_markdown false path lines).errMsg =
      strL "Missing " ++ path ++ strL "\n" ∧
    containsSub path ((process_markdown false path lines).errMsg) = true := by
  refine ⟨rfl, rfl, rfl, ?_⟩
  exact containsSub_append_self path (strL "Missing ") (strL "\n")

theorem replaceFirst_of_not_contains (pat rep l : List Char)
    (h : containsSub pat l = false) : replaceFirst pat rep l = l := by
  induction l with
  | nil => rfl
  | cons x xs ih =>
    rw [containsSub, Bool.or_eq_false_iff] at h
    simp [replaceFirst, h.1, ih h.2]

theorem replaceFirst_first_match (pat rep : List Char) (hpat : pat ≠ []) :
    ∀ pre post, hasMatchSkipping pat pre (pat ++ post) = false →
    replaceFirst pat rep (pre ++ pat ++ post) = pre ++ rep ++ post := by
  intro pre post
  induction pre with
  | nil =>
    intro _
    obtain ⟨q, qs, rfl⟩ : ∃ q qs, pat = q :: qs := by
      cases pat with
      | nil => exact absurd rfl hpat
      | cons q qs => exact ⟨q, qs, rfl⟩
    have hpre : (q :: qs).isPrefixOf (q :: (qs ++ post)) = true := by
      rw [← List.cons_append]
      exact List.isPrefixOf_iff_prefix.mpr ⟨post, rfl⟩
    simp only [List.nil_append, List.cons_append]
    rw [replaceFirst_cons, if_pos hpre, ← List.cons_append, List.drop_left]
  | cons x pre' ih =>
    intro h
    rw [hasMatchSkipping, Bool.or_eq_false_iff] at h
    simp only [List.cons_append, List.append_assoc] at ih ⊢
    rw [replaceFirst_cons, if_neg (by simp [h.1]), ih h.2]
/-- Claim C7 counterexample: `a**b` contains exactly one occurrence of
`**`, yet `convert_bold` converts it to `<b>` — the delimiter is not
left unconverted; likewise the single `__` in `x__y` becomes `<em>`. -/
theorem claim_C7_counterexample :
    countSub (strL "**") (strL "a**b\n") = 1 ∧
    convert_bold (strL "a**b\n") = strL "a<b>b\n" ∧
    containsSub (strL "**") (convert_bold (strL "a**b\n")) = false ∧
    countSub (strL "__") (strL "x__y\n") = 1 ∧
    convert_bold (strL "x__y\n") = strL "x<em>y\n" := by
  decide

/-- Claim C7 (amended): a line with exactly one `**` occurrence (and no
interaction with `__` or a second `**`) has that sole occurrence
replaced by the opening tag `<b>`, with no closing tag emitted;
symmetrically a sole `__` becomes `<em>`.  The unmatched delimiter is
converted, not preserved. -/
theorem claim_C7_single_delimiter :
    (∀ pre post : List Char,
      hasMatchSkipping (strL "**") pre (strL "**" ++ post) = false →
      containsSub (strL "**") (pre ++ strL "<b>" ++ post) = false →
      containsSub (strL "__") (pre ++ strL "<b>" ++ post) = false →
      convert_bold (pre ++ strL "**" ++ post) = pre ++ strL "<b>" ++ post) ∧
    (∀ pre post : List Char,
      containsSub (strL "**") (pre ++ strL "__" ++ post) = false →
      hasMatchSkipping (strL "__") pre (strL "__" ++ post) = false →
      containsSub (strL "__") (pre ++ strL "<em>" ++ post) = false →
      convert_bold (pre ++ strL "__" ++ post) =
        pre ++ strL "<em>" ++ post) := by
  constructor
  · intro pre post h1 h2 h3
    simp only [convert_bold]
    rw [replaceFirst_first_match (strL "**") (strL "<b>") (by decide) pre
      post h1]
    rw [replaceFirst_of_not_contains _ _ _ h2]
    rw [replaceFirst_of_not_contains _ _ _ h3]
    rw [replaceFirst_of_not_contains _ _ _ h3]
  · intro pre post h1 h2 h3
    simp only [convert_bold]
    rw [replaceFirst_of_not_contains _ _ _ h1]
    rw [replaceFirst_of_not_contains _ _ _ h1]
    rw [replaceFirst_first_match (strL "__") (strL "<em>") (by decide) pre
      post h2]
    rw [replaceFirst_of_not_contains _ _ _ h3]

/-- Witness for claim C7 (amended) on `a**b` and `x__y`. -/
theorem claim_C7_single_delimiter_witness :
    (hasMatchSkipping (strL "**") (strL "a") (strL "**" ++ strL "b\n") =
        false ∧
      containsSub (strL "**") (strL "a" ++ strL "<b>" ++ strL "b\n") =
        false ∧
      containsSub (strL "__") (strL "a" ++ strL "<b>" ++ strL "b\n") =
        false ∧
      convert_bold (strL "a" ++ strL "**" ++ strL "b\n") =
        strL "a<b>b\n") ∧
    (containsSub (strL "**") (strL "x" ++ strL "__" ++ strL "y\n") =
        false ∧
      hasMatchSkipping (strL "__") (strL "x") (strL "__" ++ strL "y\n") =
        false ∧
      containsSub (strL "__") (strL "x" ++ strL "<em>" ++ strL "y\n") =
        false ∧
      convert_bold (strL "x" ++ strL "__" ++ strL "y\n") =
        strL "x<em>y\n") := by
  refine ⟨⟨by decide, by decide, by decide, ?_⟩,
    ⟨by decide, by decide, by decide, ?_⟩⟩
  · exact (claim_C7_single_delimiter.1 (strL "a") (strL "b\n") (by decide)
      (by decide) (by decide)).trans (by decide)
  · exact (claim_C7_single_delimiter.2 (strL "x") (strL "y\n") (by decide)
      (by decide) (by decide)).trans (by decide)
theorem replaceAllAux_cons (pat rep : List Char) (fuel : Nat) (x : Char)
    (xs : List Char) :
    replaceAllAux pat rep (fuel + 1) (x :: xs) =
      if pat.isPrefixOf (x :: xs) ∧ pat ≠ [] then
        rep ++ replaceAllAux pat rep fuel ((x :: xs).drop pat.length)
      else x :: replaceAllAux pat rep fuel xs := by
  simp [replaceAllAux]

theorem replaceAllAux_of_not_contains (pat rep : List Char) :
    ∀ (fuel : Nat) (l : List Char), containsSub pat l = false →
    replaceAllAux pat rep fuel l = l := by
  intro fuel
  induction fuel with
  | zero => intro l _; rfl
  | succ fuel ih =>
    intro l h
    cases l with
    | nil => rfl
    | cons x xs =>
      rw [containsSub, Bool.or_eq_false_iff] at h
      rw [replaceAllAux_cons, if_neg (by simp [h.1]), ih xs h.2]

theorem replaceAllAux_first_match (pat rep : List Char) (hpat : pat ≠ [])
    (post : List Char) (hpost : containsSub pat post = false) :
    ∀ (pre : List Char) (fuel : Nat),
      (pre ++ pat ++ post).length ≤ fuel →
      hasMatchSkipping pat pre (pat ++ post) = false →
      replaceAllAux pat rep fuel (pre ++ pat ++ post) =
        pre ++ rep ++ post := by
  intro pre
  induction pre with
  | nil =>
    intro fuel hfuel _
    obtain ⟨q, qs, rfl⟩ : ∃ q qs, pat = q :: qs := by
      cases pat with
      | nil => exact absurd rfl hpat
      | cons q qs => exact ⟨q, qs, rfl⟩
    cases fuel with
    | zero => simp at hfuel
    | succ fuel =>
      have hpre : (q :: qs).isPrefixOf (q :: (qs ++ post)) = true := by
        rw [← List.cons_append]
        exact List.isPrefixOf_iff_prefix.mpr ⟨post, rfl⟩
      simp only [List.nil_append, List.cons_append]
      rw [replaceAllAux_cons, if_pos ⟨hpre, by simp⟩, ← List.cons_append,
        List.drop_left]
      rw [replaceAllAux_of_not_contains (q :: qs) rep fuel post hpost]
  | cons x pre' ih =>
    intro fuel hfuel h
    rw [hasMatchSkipping, Bool.or_eq_false_iff] at h
    cases fuel with
    | zero => simp at hfuel
    | succ fuel =>
      simp only [List.cons_append, List.append_assoc] at ih hfuel ⊢
      rw [replaceAllAux_cons, if_neg (by simp [h.1])]
      rw [ih fuel (by simpa using Nat.le_of_succ_le_succ hfuel) h.2]

theorem replaceAll_first_match (pat rep : List Char) (hpat : pat ≠ [])
    (pre post : List Char)
    (hfirst : hasMatchSkipping pat pre (pat ++ post) = false)
    (hpost : containsSub pat post = false) :
    replaceAll pat rep (pre ++ pat ++ post) = pre ++ rep ++ post :=
  replaceAllAux_first_match pat rep hpat post hpost pre
    (pre ++ pat ++ post).length (Nat.le_refl _) hfirst

theorem md5Bytes_length (m : List Nat) : (md5Bytes m).length = 16 := by
  simp [md5Bytes, le4]

theorem md5hex_length (text : List Char) : (md5hex text).length = 32 := by
  have key : ∀ bs : List Nat, ((bs.map hexByte).flatten).length =
      2 * bs.length := by
    intro bs
    induction bs with
    | nil => simp
    | cons b bs ih =>
      simp only [List.map_cons, List.flatten_cons, List.length_append, ih,
        hexByte, List.length_cons, List.length_nil]
      omega
  rw [md5hex, key, md5Bytes_length]

theorem md5hex_mem_hex (text : List Char) :
    ∀ ch ∈ md5hex text, ch ∈ strL "0123456789abcdef" := by
  intro ch hch
  have hx : ∀ n, n < 16 → hexDigit n ∈ strL "0123456789abcdef" := by decide
  simp only [md5hex, List.mem_flatten, List.mem_map] at hch
  obtain ⟨l, ⟨b, _, rfl⟩, hchl⟩ := hch
  simp only [hexByte, List.mem_cons, List.not_mem_nil, or_false] at hchl
  rcases hchl with h | h
  · rw [h]
    exact hx _ (Nat.mod_lt _ (by omega))
  · rw [h]
    exact hx _ (Nat.mod_lt _ (by omega))
set_option maxRecDepth 8000 in
/-- Claim C8 counterexample: in `[[a]][[a]]` the second bracketed span
is identical to the first, and `str.replace` without a count replaces
every occurrence of the matched text, so both spans are hashed — the
rest of the line (including the later span) is not left unchanged. -/
theorem claim_C8_counterexample :
    convert_md5 (strL "[[a]][[a]]") =
      md5hex (strL "a") ++ md5hex (strL "a") ∧
    convert_md5 (strL "[[a]][[a]]") ≠ md5hex (strL "a") ++ strL "[[a]]" ∧
    md5hex (strL "a") = strL "0cc175b9c0f1b6a831c399e269772661" := by
  refine ⟨by decide, by decide, by decide⟩

/-- Claim C8 (amended): the first `[[...]]` span is replaced by the
32-character lowercase-hexadecimal MD5 digest of its content (UTF-8
encoded before digesting), deterministically; every later occurrence of
the exact same span text is replaced too, and the rest of the line is
unchanged provided the first span's text does not recur (as here,
where the remainder is occurrence-free). -/
theorem claim_C8_hash_substitution (pre s post : List Char)
    (hfind : findSpanContent '[' ']'
      (pre ++ (strL "[[" ++ s ++ strL "]]") ++ post) = some s)
    (hfirst : hasMatchSkipping (strL "[[" ++ s ++ strL "]]") pre
      ((strL "[[" ++ s ++ strL "]]") ++ post) = false)
    (hpost : containsSub (strL "[[" ++ s ++ strL "]]") post = false) :
    convert_md5 (pre ++ (strL "[[" ++ s ++ strL "]]") ++ post) =
      pre ++ md5hex s ++ post ∧
    (md5hex s).length = 32 ∧
    ∀ ch ∈ md5hex s, ch ∈ strL "0123456789abcdef" := by
  refine ⟨?_, md5hex_length s, md5hex_mem_hex s⟩
  have hpat : strL "[[" ++ s ++ strL "]]" ≠ [] := by
    intro hc
    have := congrArg List.length hc
    simp [strL] at this
  rw [convert_md5, hfind]
  exact replaceAll_first_match (strL "[[" ++ s ++ strL "]]") (md5hex s)
    hpat pre post hfirst hpost

set_option maxRecDepth 8000 in
/-- Witness for claim C8 (amended): `x [[Hello]] y[[b]]` — the
`[[Hello]]` span becomes the digest of `Hello`; the later, different
span `[[b]]` is untouched. -/
theorem claim_C8_hash_substitution_witness :
    (findSpanContent '[' ']'
        (strL "x " ++ (strL "[[" ++ strL "Hello" ++ strL "]]") ++
          strL " y[[b]]") = some (strL "Hello") ∧
      hasMatchSkipping (strL "[[" ++ strL "Hello" ++ strL "]]") (strL "x ")
        ((strL "[[" ++ strL "Hello" ++ strL "]]") ++ strL " y[[b]]") =
        false ∧
      containsSub (strL "[[" ++ strL "Hello" ++ strL "]]")
        (strL " y[[b]]") = false) ∧
    convert_md5 (strL "x " ++ (strL "[[" ++ strL "Hello" ++ strL "]]") ++
        strL " y[[b]]") =
      strL "x 8b1a9953c4611296a827abf8c47804d7 y[[b]]" ∧
    (md5hex (strL "Hello")).length = 32 := by
  have h := claim_C8_hash_substitution (strL "x ") (strL "Hello")
    (strL " y[[b]]") (by decide) (by decide) (by decide)
  exact ⟨⟨by decide, by decide, by decide⟩, h.1.trans (by decide), h.2.1⟩
